import Mathlib

/-!
Formal model of the fsbridge repository: the path-routing layer
(`fsbridge/mapping.py`, `fsbridge/utils.py`) and the atomic-write
coordinator (`fsbridge/atomic.py`).

Paths and operation names are modelled as lists of characters (`PStr`),
file contents as lists of bytes (`Content`), and a backend filesystem as
an association list from paths to contents.  Each definition below is a
direct translation of the corresponding Python function; the theorems at
the end of the file settle the specification claims against these
definitions.
-/

set_option autoImplicit false

/-- Paths, mode strings and operation names: Python `str` values. -/
abbrev PStr := List Char

/-- Convert a Lean string literal to the `PStr` model (for concrete inputs). -/
def pstr (s : String) : PStr := s.toList

/-- File contents: a sequence of bytes. -/
abbrev Content := List Nat

/-- Python `s.lstrip("/")`: drop leading slashes. -/
def lstripSlash (s : PStr) : PStr := s.dropWhile (· == '/')

/-- Python `s.rstrip("/")`: drop trailing slashes. -/
def rstripSlash (s : PStr) : PStr := (s.reverse.dropWhile (· == '/')).reverse

/-- Split a path at its last slash, as `posixpath.split` does before any
normalisation: the first component is everything up to and including the
last `'/'` (empty when the path has no slash), the second component is
everything after it. -/
def pySplit : PStr → PStr × PStr
  | [] => ([], [])
  | c :: cs =>
    let r := pySplit cs
    if r.1 = [] then
      if c = '/' then ([c], cs) else ([], c :: cs)
    else (c :: r.1, r.2)

/-- Python `os.path.basename` (posix): everything after the last slash. -/
def pyBasename (p : PStr) : PStr := (pySplit p).2

/-- Python `os.path.dirname` (posix): the head up to the last slash, with
trailing slashes stripped unless the head consists only of slashes. -/
def pyDirname (p : PStr) : PStr :=
  let h := (pySplit p).1
  if h.any (· != '/') then rstripSlash h else h

/-- Temp path of an atomic write session, from `AtomicFileWrapper.__init__`:
`f"{dirname}/{prefix}{basename}{suffix}"`. -/
def tempPathOf (path pre suf : PStr) : PStr :=
  pyDirname path ++ '/' :: (pre ++ pyBasename path ++ suf)

/-- Backend filesystem state: association list from path to file content. -/
abbrev FS := List (PStr × Content)

/-- Content stored at a path, if any. -/
def FS.readFile : FS → PStr → Option Content
  | [], _ => none
  | (q, c) :: rest, p => if q = p then some c else FS.readFile rest p

/-- Backend `fs.exists`. -/
def FS.fileExists (fs : FS) (p : PStr) : Bool := (FS.readFile fs p).isSome

/-- Remove every entry stored at a path. -/
def FS.eraseFile : FS → PStr → FS
  | [], _ => []
  | (q, c) :: rest, p =>
    if q = p then FS.eraseFile rest p else (q, c) :: FS.eraseFile rest p

/-- Create or overwrite the file at a path. -/
def FS.setFile (fs : FS) (p : PStr) (c : Content) : FS :=
  (p, c) :: FS.eraseFile fs p

/-- Backend `fs.rm` on a single path: fails when the path is absent. -/
def FS.rm (fs : FS) (p : PStr) : Option FS :=
  if FS.fileExists fs p then some (FS.eraseFile fs p) else none

/-- Backend `fs.mv`: move the content at `src` onto `dst`, replacing any
existing file at `dst`; fails when `src` is absent. -/
def FS.mv (fs : FS) (src dst : PStr) : Option FS :=
  match FS.readFile fs src with
  | none => none
  | some c => some (FS.setFile (FS.eraseFile fs src) dst c)

theorem FS.readFile_eraseFile_self (fs : FS) (p : PStr) :
    FS.readFile (FS.eraseFile fs p) p = none := by
  induction fs with
  | nil => rfl
  | cons e rest ih =>
    obtain ⟨q, c⟩ := e
    by_cases h : q = p
    · simp [FS.eraseFile, h, ih]
    · simp [FS.eraseFile, FS.readFile, h, ih]

theorem FS.readFile_eraseFile_ne (fs : FS) (p q : PStr) (h : q ≠ p) :
    FS.readFile (FS.eraseFile fs p) q = FS.readFile fs q := by
  induction fs with
  | nil => rfl
  | cons e rest ih =>
    obtain ⟨r, c⟩ := e
    by_cases hr : r = p
    · subst hr
      simp [FS.eraseFile, FS.readFile, Ne.symm h, ih]
    · simp [FS.eraseFile, FS.readFile, hr, ih]

theorem FS.readFile_setFile_self (fs : FS) (p : PStr) (c : Content) :
    FS.readFile (FS.setFile fs p c) p = some c := by
  simp [FS.setFile, FS.readFile]

theorem FS.readFile_setFile_ne (fs : FS) (p q : PStr) (c : Content) (h : q ≠ p) :
    FS.readFile (FS.setFile fs p c) q = FS.readFile fs q := by
  have : p ≠ q := fun hpq => h hpq.symm
  simp [FS.setFile, FS.readFile, this, FS.readFile_eraseFile_ne fs p q h]

theorem pySplit_no_slash (p : PStr) (h : '/' ∉ p) : pySplit p = ([], p) := by
  induction p with
  | nil => rfl
  | cons c cs ih =>
    have hc : c ≠ '/' := fun hc => h (hc ▸ List.mem_cons_self c cs)
    have hcs : '/' ∉ cs := fun hm => h (List.mem_cons_of_mem c hm)
    simp [pySplit, ih hcs, hc]

theorem pySplit_append (d name : PStr) (hn : '/' ∉ name) :
    pySplit (d ++ '/' :: name) = (d ++ ['/'], name) := by
  induction d with
  | nil => simp [pySplit, pySplit_no_slash name hn]
  | cons c cs ih => simp [pySplit, ih]

theorem rstripSlash_append_slash (d : PStr) (hd : d.reverse.head? ≠ some '/') :
    rstripSlash (d ++ ['/']) = d := by
  unfold rstripSlash
  rw [List.reverse_append]
  have h1 : List.reverse ['/'] ++ d.reverse = '/' :: d.reverse := rfl
  rw [h1, List.dropWhile_cons]
  simp only [beq_self_eq_true, if_true]
  cases hrev : d.reverse with
  | nil =>
    have hdnil : d = [] := by simpa using congrArg List.reverse hrev
    simp [hdnil]
  | cons a t =>
    have ha : a ≠ '/' := by
      intro h; apply hd; rw [hrev, h]; rfl
    have hfalse : (a == '/') = false := by simp [ha]
    rw [List.dropWhile_cons, hfalse]
    simp only [Bool.false_eq_true, if_false]
    calc (a :: t).reverse = d.reverse.reverse := by rw [hrev]
      _ = d := List.reverse_reverse d

theorem any_ne_slash_of_last (d : PStr) (hd : d ≠ []) (hlast : d.reverse.head? ≠ some '/') :
    (d ++ ['/']).any (· != '/') = true := by
  cases hrev : d.reverse with
  | nil => exact absurd (by simpa using congrArg List.reverse hrev) hd
  | cons a t =>
    have ha : a ≠ '/' := fun h => hlast (by rw [hrev, h]; rfl)
    have hmem : a ∈ d := by
      have : a ∈ d.reverse := by rw [hrev]; exact List.mem_cons_self a t
      simpa using this
    refine List.any_eq_true.mpr ⟨a, List.mem_append_left _ hmem, by simp [ha]⟩

theorem pyDirname_append (d name : PStr) (hd : d ≠ []) (hlast : d.reverse.head? ≠ some '/')
    (hn : '/' ∉ name) : pyDirname (d ++ '/' :: name) = d := by
  unfold pyDirname
  rw [pySplit_append d name hn]
  rw [if_pos (any_ne_slash_of_last d hd hlast)]
  exact rstripSlash_append_slash d hlast

theorem pyBasename_append (d name : PStr) (hn : '/' ∉ name) :
    pyBasename (d ++ '/' :: name) = name := by
  unfold pyBasename
  rw [pySplit_append d name hn]

/-- Faults injected into the backend calls made by the commit and cleanup
code of `AtomicFileWrapper.close`; each flag makes the corresponding
backend call raise. -/
structure CommitFaults where
  rmTargetFails : Bool
  mvFails : Bool
  rmTempFails : Bool
deriving DecidableEq

/-- A fault-free backend. -/
def noFaults : CommitFaults := ⟨false, false, false⟩

/-- Errors raised inside the commit step. -/
inductive CommitErr
  | rmTargetErr
  | mvErr
deriving DecidableEq

/-- Outcome of the `try` block in `AtomicFileWrapper.close`: either the
commit succeeded, or an exception was raised with the filesystem in the
state it had at the point of failure. -/
inductive TryResult
  | ok (fs : FS)
  | fail (e : CommitErr) (fsAtFail : FS)
deriving DecidableEq

/-- How control leaves `close` / `__exit__`: `done` when the wrapper itself
raises nothing, `threw e` when exception `e` propagates out of `close`;
both carry the final filesystem state. -/
inductive CloseResult
  | done (fs : FS)
  | threw (e : CommitErr) (fs : FS)
deriving DecidableEq

/-- The `self.fs.mv(self.temp_path, self.path)` step of `close`. -/
def mvStep (flt : CommitFaults) (fs : FS) (temp path : PStr) : TryResult :=
  if flt.mvFails then .fail .mvErr fs
  else
    match FS.mv fs temp path with
    | some fsNew => .ok fsNew
    | none => .fail .mvErr fs

/-- Body of the `try` block in `AtomicFileWrapper.close`: remove the
destination if it exists, then move the temp file onto it. -/
def commitAttempt (flt : CommitFaults) (fs : FS) (temp path : PStr) : TryResult :=
  if FS.fileExists fs path then
    if flt.rmTargetFails then .fail .rmTargetErr fs
    else mvStep flt (FS.eraseFile fs path) temp path
  else mvStep flt fs temp path

/-- Best-effort `self.fs.rm(self.temp_path)` inside `try/except: pass`: any
failure (injected fault or missing temp file) is swallowed. -/
def bestEffortRmTemp (flt : CommitFaults) (fs : FS) (temp : PStr) : FS :=
  if flt.rmTempFails then fs
  else
    match FS.rm fs temp with
    | some fsNew => fsNew
    | none => fs

/-- Python `"w" in self.mode or "a" in self.mode or "+" in self.mode`. -/
def isWriteMode (mode : PStr) : Bool :=
  mode.contains 'w' || mode.contains 'a' || mode.contains '+'

/-- State of an `AtomicFileWrapper` (`fsbridge/atomic.py`). -/
structure AtomicFileWrapper where
  path : PStr
  mode : PStr
  temp_path : PStr
  fs : FS
  closed : Bool
deriving DecidableEq

/-- `fs.open(p, mode)` for a write-capable mode: a mode with `'w'`
truncates or creates; append mode creates only when the file is missing. -/
def fsOpenWrite (fs : FS) (p : PStr) (mode : PStr) : FS :=
  if mode.contains 'w' then FS.setFile fs p []
  else
    match FS.readFile fs p with
    | some _ => fs
    | none => FS.setFile fs p []

/-- `AtomicFileWrapper.__init__`: derive the temp path and open it with the
requested mode. -/
def AtomicFileWrapper.mk' (fs : FS) (path mode pre suf : PStr) : AtomicFileWrapper :=
  let temp := tempPathOf path pre suf
  { path := path, mode := mode, temp_path := temp
    fs := fsOpenWrite fs temp mode, closed := false }

/-- `AtomicFileWrapper.write`: append the data to the temp file. -/
def AtomicFileWrapper.write (w : AtomicFileWrapper) (data : Content) : AtomicFileWrapper :=
  { w with
    fs := FS.setFile w.fs w.temp_path ((FS.readFile w.fs w.temp_path).getD [] ++ data) }

/-- `AtomicFileWrapper.close`: no-op when already closed; in a
write-capable mode, remove any existing destination and move the temp file
onto it; if that commit raises, best-effort-remove the temp file and
re-raise the original error. -/
def AtomicFileWrapper.close (flt : CommitFaults) (w : AtomicFileWrapper) : CloseResult :=
  if w.closed then .done w.fs
  else if isWriteMode w.mode then
    match commitAttempt flt w.fs w.temp_path w.path with
    | .ok fsNew => .done fsNew
    | .fail e fsAtFail => .threw e (bestEffortRmTemp flt fsAtFail w.temp_path)
  else .done w.fs

/-- `AtomicFileWrapper.__exit__`: when an exception is propagating, close
the temp stream and best-effort-remove the temp file (the caller's
exception keeps propagating, and the commit never runs); otherwise close
normally, which commits. -/
def AtomicFileWrapper.exitScope (excRaised : Bool) (flt : CommitFaults)
    (w : AtomicFileWrapper) : CloseResult :=
  if excRaised then .done (bestEffortRmTemp flt w.fs w.temp_path)
  else AtomicFileWrapper.close flt w

/-- `AtomicTextIOWrapper`: an `io.TextIOWrapper` stacked on an
`AtomicFileWrapper` opened with `mode.replace("t", "") + "b"`. The
encoding layer does not affect commit or discard, so text writes are
modelled as the encoded byte writes reaching the binary wrapper. -/
structure AtomicTextIOWrapper where
  binary_wrapper : AtomicFileWrapper
deriving DecidableEq

/-- Python `mode.replace("t", "") + "b"` from `AtomicTextIOWrapper.__init__`. -/
def textToBinaryMode (mode : PStr) : PStr := mode.filter (· != 't') ++ ['b']

/-- `AtomicTextIOWrapper.__init__`. -/
def AtomicTextIOWrapper.mk' (fs : FS) (path mode pre suf : PStr) : AtomicTextIOWrapper :=
  ⟨AtomicFileWrapper.mk' fs path (textToBinaryMode mode) pre suf⟩

/-- `AtomicTextIOWrapper.write`, after encoding. -/
def AtomicTextIOWrapper.write (w : AtomicTextIOWrapper) (data : Content) : AtomicTextIOWrapper :=
  ⟨w.binary_wrapper.write data⟩

/-- `AtomicTextIOWrapper.__exit__` delegates to
`io.TextIOWrapper.__exit__`, which is inherited from `io.IOBase` and
ignores the exception information, unconditionally calling `close()`;
`TextIOWrapper.close` flushes and closes the underlying buffer, i.e. runs
`AtomicFileWrapper.close` — the commit path — whether or not an exception
is propagating out of the scope. -/
def AtomicTextIOWrapper.exitScope (_excRaised : Bool) (flt : CommitFaults)
    (w : AtomicTextIOWrapper) : CloseResult :=
  AtomicFileWrapper.close flt w.binary_wrapper

/-- Python values passed as a path argument: a `str`, a `pathlib.Path`, or
some other non-string object identified by a tag. -/
inductive PyVal
  | str (s : PStr)
  | pathObj (s : PStr)
  | obj (tag : Nat)
deriving DecidableEq

/-- Loop body of the mapper returned by `create_path_mapper_from_dict`
(`fsbridge/utils.py`): iterate the entries in order; for the first entry
whose local prefix starts the path, strip it, lstrip the remainder and
join it onto the rstripped remote prefix — or return the bare remainder
when the remote prefix is empty; fall through to `(False, path)`. -/
def dictMapperGo : List (PStr × PStr) → PStr → Bool × PStr
  | [], path => (false, path)
  | (l, r) :: rest, path =>
    if l.isPrefixOf path then
      let rel := lstripSlash (path.drop l.length)
      if r ≠ [] then (true, rstripSlash r ++ '/' :: rel) else (true, rel)
    else dictMapperGo rest path

/-- The mapper returned by `create_path_mapper_from_dict`, including its
leading `if not path: return False, path` guard. -/
def dictMapper (tbl : List (PStr × PStr)) (path _operation : PStr) : Bool × PStr :=
  if path = [] then (false, path) else dictMapperGo tbl path

/-- Path-mapping configuration accepted by `FSSpecMapping.__init__`:
`None`, a dict, or a callable. -/
inductive PathMapping
  | noneCfg
  | dictCfg (tbl : List (PStr × PStr))
  | funcCfg (f : PStr → PStr → Bool × PStr)

/-- The `_path_mapper` selected by `FSSpecMapping.__init__`. -/
def pathMapperOf : PathMapping → PStr → PStr → Bool × PStr
  | .noneCfg => fun path _ => if path ≠ [] then (true, path) else (false, path)
  | .dictCfg tbl => dictMapper tbl
  | .funcCfg f => f

/-- `FSSpecMapping.map_path`: convert a `pathlib.Path` to `str`; return
`(False, path)` unchanged for any non-string value; otherwise consult the
configured `_path_mapper`. -/
def mapPath (cfg : PathMapping) (path : PyVal) (operation : PStr) : Bool × PyVal :=
  match path with
  | .pathObj s => ((pathMapperOf cfg s operation).1, .str (pathMapperOf cfg s operation).2)
  | .str s => ((pathMapperOf cfg s operation).1, .str (pathMapperOf cfg s operation).2)
  | .obj t => (false, .obj t)

/-- Attribute names defined on `FSSpecMapping` itself: the instance
attributes set in `__init__` and the methods of the class. Python's
normal attribute lookup finds these, so `__getattr__` is never invoked
for them. -/
def builtinAttrs : List PStr :=
  [pstr "fs", pstr "atomic_writes", pstr "atomic_suffix", pstr "atomic_prefix",
   pstr "_path_mapper", pstr "_extensions",
   pstr "map_path", pstr "register_extension", pstr "context", pstr "open",
   pstr "os_path_exists", pstr "os_path_isdir", pstr "os_path_isfile",
   pstr "os_path_getsize", pstr "os_path_getmtime", pstr "os_path_getctime",
   pstr "os_mkdir", pstr "os_makedirs", pstr "os_listdir", pstr "os_remove",
   pstr "os_unlink", pstr "os_rmdir", pstr "os_rename",
   pstr "pathlib_exists", pstr "pathlib_is_dir", pstr "pathlib_is_file",
   pstr "pathlib_stat", pstr "pathlib_mkdir",
   pstr "shutil_copy", pstr "shutil_copy2", pstr "shutil_copyfile",
   pstr "shutil_copytree", pstr "shutil_move", pstr "shutil_rmtree"]

/-- Lookup in the `_extensions` dict (handlers identified by ids). -/
def Registry.get? : List (PStr × Nat) → PStr → Option Nat
  | [], _ => none
  | (k, v) :: rest, n => if k = n then some v else Registry.get? rest n

/-- `FSSpecMapping.register_extension`: `self._extensions[name] = fn`,
replacing any existing binding for the same name. -/
def registerExtension (exts : List (PStr × Nat)) (name : PStr) (h : Nat) :
    List (PStr × Nat) :=
  (name, h) :: exts.filter (fun e => e.1 != name)

/-- Result of attribute lookup on an `FSSpecMapping`. -/
inductive AttrVal
  | builtin (name : PStr)
  | ext (h : Nat)
deriving DecidableEq

/-- Attribute lookup on an `FSSpecMapping` instance: Python resolves
instance and class attributes first; only when that fails is
`FSSpecMapping.__getattr__` invoked, which consults `_extensions` and
otherwise raises `AttributeError` (modelled as `none`). -/
def getattrMapping (exts : List (PStr × Nat)) (name : PStr) : Option AttrVal :=
  if name ∈ builtinAttrs then some (.builtin name)
  else
    match Registry.get? exts name with
    | some h => some (.ext h)
    | none => none

/-- What `FSSpecMapping.os_rename` does: either raise `ValueError`
("Paths should both be patched") or call `fs.mv` on the two mapped paths. -/
inductive RenameAction
  | mvCall (src dst : PyVal)
  | valueError
deriving DecidableEq

/-- `FSSpecMapping.os_rename`. -/
def osRename (cfg : PathMapping) (src dst : PyVal) : RenameAction :=
  let rs := mapPath cfg src (pstr "os.rename.src")
  let rd := mapPath cfg dst (pstr "os.rename.dst")
  if rs.1 && rd.1 then .mvCall rs.2 rd.2 else .valueError

/-- The removal call issued by `shutil_move` after its copy step. -/
inductive RemoveStep
  | backendRm (p : PyVal) (recursive : Bool)
  | localRmtree (p : PyVal)
  | localRemove (p : PyVal)
deriving DecidableEq

/-- What `FSSpecMapping.shutil_move` does, as the backend/local calls it
issues. -/
inductive MoveAction
  | backendMv (src dst : PyVal)
  | copyThenRemove (step : RemoveStep)
deriving DecidableEq

/-- `FSSpecMapping.shutil_move`: both sides patched means a backend
`fs.mv` of the mapped paths; otherwise `shutil_copy2` followed by removal
of the source — `fs.rm(src_path)` with its default `recursive=False` when
the source is patched, else `shutil.rmtree`/`os.remove` depending on
`os.path.isdir(src)` (modelled by `srcIsDir`). -/
def shutilMove (cfg : PathMapping) (src dst : PyVal)
    (srcPatch dstPatch srcIsDir : Bool) : MoveAction :=
  if srcPatch && dstPatch then
    .backendMv (mapPath cfg src (pstr "shutil.move.src")).2
      (mapPath cfg dst (pstr "shutil.move.dst")).2
  else
    .copyThenRemove
      (if srcPatch then .backendRm (mapPath cfg src (pstr "shutil.move.src")).2 false
       else if srcIsDir then .localRmtree src else .localRemove src)

/-- The handle `FSSpecMapping.open` returns (or the error it raises). -/
inductive OpenAction
  | atomicText (p : PyVal) (mode : PStr)
  | atomicBinary (p : PyVal) (mode : PStr)
  | fsOpen (p : PyVal) (mode : PStr)
  | valueError
deriving DecidableEq

/-- `FSSpecMapping.open`: route the path; with atomic writes enabled and a
mode containing `'w'`, wrap the write in the text or binary atomic
wrapper (text when the mode has no `'b'`); otherwise call `fs.open` on
the mapped path directly. -/
def mappingOpen (cfg : PathMapping) (atomicWrites : Bool)
    (file : PyVal) (mode : PStr) : OpenAction :=
  let r := mapPath cfg file (pstr "open")
  if !r.1 then .valueError
  else if atomicWrites && mode.contains 'w' && !(mode.contains 'b') then
    .atomicText r.2 mode
  else if atomicWrites && mode.contains 'w' then
    .atomicBinary r.2 mode
  else .fsOpen r.2 mode

/-- Did control leave `close`/`__exit__` without the wrapper raising? -/
def CloseResult.isDone : CloseResult → Bool
  | .done _ => true
  | .threw _ _ => false

/-- Final filesystem state carried by a `CloseResult`. -/
def CloseResult.fsOf : CloseResult → FS
  | .done fs => fs
  | .threw _ fs => fs

theorem commitAttempt_noFaults (fs : FS) (temp path : PStr) (c : Content)
    (htemp : FS.readFile fs temp = some c) (hne : temp ≠ path) :
    ∃ fsFinal, commitAttempt noFaults fs temp path = .ok fsFinal
      ∧ FS.readFile fsFinal path = some c
      ∧ FS.readFile fsFinal temp = none := by
  by_cases hb : FS.fileExists fs path = true
  · have hread : FS.readFile (FS.eraseFile fs path) temp = some c := by
      rw [FS.readFile_eraseFile_ne fs path temp hne]; exact htemp
    refine ⟨FS.setFile (FS.eraseFile (FS.eraseFile fs path) temp) path c, ?_, ?_, ?_⟩
    · simp [commitAttempt, hb, noFaults, mvStep, FS.mv, hread]
    · exact FS.readFile_setFile_self _ _ _
    · rw [FS.readFile_setFile_ne _ _ _ _ hne, FS.readFile_eraseFile_self]
  · refine ⟨FS.setFile (FS.eraseFile fs temp) path c, ?_, ?_, ?_⟩
    · simp [commitAttempt, hb, noFaults, mvStep, FS.mv, htemp]
    · exact FS.readFile_setFile_self _ _ _
    · rw [FS.readFile_setFile_ne _ _ _ _ hne, FS.readFile_eraseFile_self]

theorem close_ok_of_commit (flt : CommitFaults) (w : AtomicFileWrapper) (fsFinal : FS)
    (hclosed : w.closed = false) (hmode : isWriteMode w.mode = true)
    (hca : commitAttempt flt w.fs w.temp_path w.path = .ok fsFinal) :
    AtomicFileWrapper.close flt w = .done fsFinal := by
  unfold AtomicFileWrapper.close
  rw [hclosed]
  simp [hmode, hca]

theorem initWrite_fs (fs : FS) (path mode pre suf : PStr) (data : Content)
    (hw : mode.contains 'w' = true) :
    ((AtomicFileWrapper.mk' fs path mode pre suf).write data).fs
      = FS.setFile (FS.setFile fs (tempPathOf path pre suf) [])
          (tempPathOf path pre suf) data := by
  have h0 : ((AtomicFileWrapper.mk' fs path mode pre suf).write data).fs
      = FS.setFile (fsOpenWrite fs (tempPathOf path pre suf) mode) (tempPathOf path pre suf)
        ((FS.readFile (fsOpenWrite fs (tempPathOf path pre suf) mode)
          (tempPathOf path pre suf)).getD [] ++ data) := rfl
  rw [h0]
  unfold fsOpenWrite
  rw [hw]
  simp [FS.readFile_setFile_self]

/-- Claim C2: a session opened in a write mode with content written to it
commits on normal close — any existing target is removed, the temp file
is renamed onto the target, and afterwards reading the target yields
exactly the written content with no temp object remaining. -/
theorem c2_commit_correct (fs : FS) (path mode pre suf : PStr) (data : Content)
    (hw : mode.contains 'w' = true)
    (h : tempPathOf path pre suf ≠ path) :
    (AtomicFileWrapper.exitScope false noFaults
        ((AtomicFileWrapper.mk' fs path mode pre suf).write data)).isDone = true
    ∧ FS.readFile (AtomicFileWrapper.exitScope false noFaults
        ((AtomicFileWrapper.mk' fs path mode pre suf).write data)).fsOf path = some data
    ∧ FS.readFile (AtomicFileWrapper.exitScope false noFaults
        ((AtomicFileWrapper.mk' fs path mode pre suf).write data)).fsOf
        (tempPathOf path pre suf) = none := by
  have hwm : isWriteMode mode = true := by unfold isWriteMode; rw [hw]; rfl
  have hfs := initWrite_fs fs path mode pre suf data hw
  have htempread : FS.readFile ((AtomicFileWrapper.mk' fs path mode pre suf).write data).fs
      (tempPathOf path pre suf) = some data := by
    rw [hfs]; exact FS.readFile_setFile_self _ _ _
  obtain ⟨fsFinal, hca, hr1, hr2⟩ :=
    commitAttempt_noFaults _ (tempPathOf path pre suf) path data htempread h
  have hdone : AtomicFileWrapper.exitScope false noFaults
      ((AtomicFileWrapper.mk' fs path mode pre suf).write data) = .done fsFinal := by
    unfold AtomicFileWrapper.exitScope
    simp only [Bool.false_eq_true, if_false]
    exact close_ok_of_commit noFaults _ fsFinal rfl hwm hca
  rw [hdone]
  exact ⟨rfl, hr1, hr2⟩

/-- Closed instance of `c2_commit_correct`: writing `[7]` to `a/b` in mode
`"wb"` with the default temp prefix and suffix. -/
theorem c2_commit_correct_witness :
    (AtomicFileWrapper.exitScope false noFaults
        ((AtomicFileWrapper.mk' [] (pstr "a/b") (pstr "wb") (pstr ".") (pstr ".tmp")).write
          [7])).isDone = true
    ∧ FS.readFile (AtomicFileWrapper.exitScope false noFaults
        ((AtomicFileWrapper.mk' [] (pstr "a/b") (pstr "wb") (pstr ".") (pstr ".tmp")).write
          [7])).fsOf (pstr "a/b") = some [7]
    ∧ FS.readFile (AtomicFileWrapper.exitScope false noFaults
        ((AtomicFileWrapper.mk' [] (pstr "a/b") (pstr "wb") (pstr ".") (pstr ".tmp")).write
          [7])).fsOf (tempPathOf (pstr "a/b") (pstr ".") (pstr ".tmp")) = none :=
  c2_commit_correct [] (pstr "a/b") (pstr "wb") (pstr ".") (pstr ".tmp") [7]
    (by decide) (by decide)

/-- Claim C1 (evaluation at the failing input): exercising the text
wrapper exactly as the repository's own `test_atomic_exception` does —
open `AtomicTextIOWrapper` for mode `"w"`, write data, and let an
exception propagate out of the scope — ends with the partial data
committed and visible at the target path. `AtomicTextIOWrapper.__exit__`
delegates to `io.TextIOWrapper.__exit__`, which ignores the exception and
calls `close()`, and closing the underlying binary wrapper runs the
commit. The claim (and the test's `assert not os.path.exists(test_path)`)
requires the target to be left untouched instead. -/
theorem c1_text_abnormal_exit_commits :
    AtomicTextIOWrapper.exitScope true noFaults
        ((AtomicTextIOWrapper.mk' [] (pstr "d/f.txt") (pstr "w")
          (pstr ".") (pstr ".tmp")).write [1, 2, 3])
      = .done [(pstr "d/f.txt", [1, 2, 3])]
    ∧ FS.fileExists [(pstr "d/f.txt", [1, 2, 3])] (pstr "d/f.txt") = true := by
  decide

/-- In contrast, the binary wrapper's own `__exit__` does discard on
abnormal exit: the target path is exactly as before the call and the temp
object is gone (the C1 defect is confined to the text wrapper's
delegation). -/
theorem binary_abnormal_exit_discards (fs : FS) (path mode pre suf : PStr) (data : Content)
    (h : tempPathOf path pre suf ≠ path) :
    (AtomicFileWrapper.exitScope true noFaults
        ((AtomicFileWrapper.mk' fs path mode pre suf).write data)).isDone = true
    ∧ FS.readFile (AtomicFileWrapper.exitScope true noFaults
        ((AtomicFileWrapper.mk' fs path mode pre suf).write data)).fsOf path
        = FS.readFile fs path
    ∧ FS.readFile (AtomicFileWrapper.exitScope true noFaults
        ((AtomicFileWrapper.mk' fs path mode pre suf).write data)).fsOf
        (tempPathOf path pre suf) = none := by
  have hpt : path ≠ tempPathOf path pre suf := fun hh => h hh.symm
  set w := (AtomicFileWrapper.mk' fs path mode pre suf).write data with hwdef
  have htp : w.temp_path = tempPathOf path pre suf := rfl
  have hwfs : w.fs = FS.setFile (fsOpenWrite fs (tempPathOf path pre suf) mode)
      (tempPathOf path pre suf)
      ((FS.readFile (fsOpenWrite fs (tempPathOf path pre suf) mode)
        (tempPathOf path pre suf)).getD [] ++ data) := rfl
  have hex : FS.fileExists w.fs (tempPathOf path pre suf) = true := by
    rw [hwfs]
    unfold FS.fileExists
    rw [FS.readFile_setFile_self]
    rfl
  have hrun : AtomicFileWrapper.exitScope true noFaults w
      = .done (FS.eraseFile w.fs (tempPathOf path pre suf)) := by
    unfold AtomicFileWrapper.exitScope bestEffortRmTemp FS.rm
    simp [htp, hex, noFaults]
  rw [hrun]
  refine ⟨rfl, ?_, ?_⟩
  · rw [CloseResult.fsOf, FS.readFile_eraseFile_ne _ _ _ hpt, hwfs,
      FS.readFile_setFile_ne _ _ _ _ hpt]
    unfold fsOpenWrite
    by_cases hw : mode.contains 'w' = true
    · rw [if_pos hw, FS.readFile_setFile_ne _ _ _ _ hpt]
    · rw [if_neg hw]
      cases hr : FS.readFile fs (tempPathOf path pre suf) with
      | some c => rfl
      | none => rw [FS.readFile_setFile_ne _ _ _ _ hpt]
  · rw [CloseResult.fsOf, FS.readFile_eraseFile_self]

/-- Claim C8: when the commit step of `close` raises (removal of an
existing target or the temp-to-target move fails), `close` best-effort
deletes the temp object and re-raises the original error; a cleanup
failure is swallowed, leaving the state from the failure point, and never
replaces the propagated error. -/
theorem c8_commit_failure_cleanup (flt : CommitFaults) (w : AtomicFileWrapper)
    (e : CommitErr) (fsAtFail : FS)
    (hclosed : w.closed = false) (hmode : isWriteMode w.mode = true)
    (hfail : commitAttempt flt w.fs w.temp_path w.path = .fail e fsAtFail) :
    AtomicFileWrapper.close flt w = .threw e (bestEffortRmTemp flt fsAtFail w.temp_path)
    ∧ (flt.rmTempFails = false →
        FS.readFile (bestEffortRmTemp flt fsAtFail w.temp_path) w.temp_path = none)
    ∧ (flt.rmTempFails = true → bestEffortRmTemp flt fsAtFail w.temp_path = fsAtFail) := by
  refine ⟨?_, ?_, ?_⟩
  · unfold AtomicFileWrapper.close
    rw [hclosed]
    simp [hmode, hfail]
  · intro hok
    unfold bestEffortRmTemp FS.rm
    rw [hok]
    by_cases hex : FS.fileExists fsAtFail w.temp_path = true
    · simp [hex, FS.readFile_eraseFile_self]
    · have hnone : FS.readFile fsAtFail w.temp_path = none := by
        unfold FS.fileExists at hex
        exact Option.not_isSome_iff_eq_none.mp (by simpa using hex)
      simp [hex, hnone]
  · intro hbad
    unfold bestEffortRmTemp
    simp [hbad]

/-- Closed instance of `c8_commit_failure_cleanup`: the move step fails
while the temp-cleanup also fails; the propagated error is still the
original move error. -/
theorem c8_commit_failure_cleanup_witness :
    AtomicFileWrapper.close ⟨false, true, true⟩
        (AtomicFileWrapper.mk' [] (pstr "a/b") (pstr "wb") (pstr ".") (pstr ".tmp"))
      = .threw .mvErr (bestEffortRmTemp ⟨false, true, true⟩
          [(tempPathOf (pstr "a/b") (pstr ".") (pstr ".tmp"), [])]
          (AtomicFileWrapper.mk' [] (pstr "a/b") (pstr "wb") (pstr ".")
            (pstr ".tmp")).temp_path)
    ∧ ((⟨false, true, true⟩ : CommitFaults).rmTempFails = false →
        FS.readFile (bestEffortRmTemp ⟨false, true, true⟩
          [(tempPathOf (pstr "a/b") (pstr ".") (pstr ".tmp"), [])]
          (AtomicFileWrapper.mk' [] (pstr "a/b") (pstr "wb") (pstr ".")
            (pstr ".tmp")).temp_path)
          (AtomicFileWrapper.mk' [] (pstr "a/b") (pstr "wb") (pstr ".")
            (pstr ".tmp")).temp_path = none)
    ∧ ((⟨false, true, true⟩ : CommitFaults).rmTempFails = true →
        bestEffortRmTemp ⟨false, true, true⟩
          [(tempPathOf (pstr "a/b") (pstr ".") (pstr ".tmp"), [])]
          (AtomicFileWrapper.mk' [] (pstr "a/b") (pstr "wb") (pstr ".")
            (pstr ".tmp")).temp_path
          = [(tempPathOf (pstr "a/b") (pstr ".") (pstr ".tmp"), [])]) :=
  c8_commit_failure_cleanup ⟨false, true, true⟩
    (AtomicFileWrapper.mk' [] (pstr "a/b") (pstr "wb") (pstr ".") (pstr ".tmp"))
    .mvErr [(tempPathOf (pstr "a/b") (pstr ".") (pstr ".tmp"), [])]
    (by decide) (by decide) (by decide)

/-- Claim C6 (counterexample): for a target path with no directory
component, `os.path.dirname` is empty and the computed temp path
`f"{dirname}/{prefix}{basename}{suffix}"` gains a leading slash, placing
the temp object in the root directory rather than in the target's
(current) directory. -/
theorem c6_bare_name_counterexample :
    tempPathOf (pstr "f.txt") (pstr ".") (pstr ".tmp") = pstr "/.f.txt.tmp"
    ∧ pyDirname (tempPathOf (pstr "f.txt") (pstr ".") (pstr ".tmp"))
        ≠ pyDirname (pstr "f.txt") := by
  decide

/-- Claim C6 (amended): the temp path is literally
`dirname(target) + "/" + prefix + basename(target) + suffix`; whenever
the target path has a proper directory component (nonempty and not ending
in a slash) and the prefix, base name and suffix are slash-free, the temp
object lives in the same directory as the target. For a bare file name
the computed temp path instead starts with a slash and lands in the root
directory. -/
theorem c6_temp_path_amended (d name pre suf : PStr)
    (hd : d ≠ []) (hlast : d.reverse.head? ≠ some '/')
    (hn : '/' ∉ name) (hp : '/' ∉ pre) (hs : '/' ∉ suf) :
    tempPathOf (d ++ '/' :: name) pre suf = d ++ '/' :: (pre ++ name ++ suf)
    ∧ pyDirname (tempPathOf (d ++ '/' :: name) pre suf) = pyDirname (d ++ '/' :: name) := by
  have h1 : tempPathOf (d ++ '/' :: name) pre suf = d ++ '/' :: (pre ++ name ++ suf) := by
    unfold tempPathOf
    rw [pyDirname_append d name hd hlast hn, pyBasename_append d name hn]
  have hno : '/' ∉ pre ++ name ++ suf := by
    intro hmem
    rcases List.mem_append.mp hmem with hmem | hmem
    · rcases List.mem_append.mp hmem with hmem | hmem
      · exact hp hmem
      · exact hn hmem
    · exact hs hmem
  refine ⟨h1, ?_⟩
  rw [h1, pyDirname_append d _ hd hlast hno, pyDirname_append d name hd hlast hn]

/-- Closed instance of `c6_temp_path_amended` at `a/b.txt` with the
default temp prefix and suffix. -/
theorem c6_temp_path_amended_witness :
    tempPathOf (pstr "a" ++ '/' :: pstr "b.txt") (pstr ".") (pstr ".tmp")
        = pstr "a" ++ '/' :: (pstr "." ++ pstr "b.txt" ++ pstr ".tmp")
    ∧ pyDirname (tempPathOf (pstr "a" ++ '/' :: pstr "b.txt") (pstr ".") (pstr ".tmp"))
        = pyDirname (pstr "a" ++ '/' :: pstr "b.txt") :=
  c6_temp_path_amended (pstr "a") (pstr "b.txt") (pstr ".") (pstr ".tmp")
    (by decide) (by decide) (by decide) (by decide) (by decide)

/-- Claim C4: the dict mapper tries the entries in the caller-supplied
order and the first entry whose local prefix starts the path wins,
producing the rstripped remote prefix joined by `'/'` to the lstripped
remainder (the bare remainder when the remote prefix is empty); when no
entry matches, the decision is `(False, path)` with the path unchanged. -/
theorem c4_dict_mapper_first_match (tbl : List (PStr × PStr)) (path op : PStr)
    (hp : path ≠ []) :
    dictMapper tbl path op =
      match tbl.find? (fun e => e.1.isPrefixOf path) with
      | some (l, r) =>
          (true, if r = [] then lstripSlash (path.drop l.length)
                 else rstripSlash r ++ '/' :: lstripSlash (path.drop l.length))
      | none => (false, path) := by
  unfold dictMapper
  rw [if_neg hp]
  induction tbl with
  | nil => rfl
  | cons e rest ih =>
    obtain ⟨l, r⟩ := e
    by_cases hpre : l.isPrefixOf path
    · by_cases hr : r = []
      · simp [dictMapperGo, hpre, hr, List.find?]
      · simp [dictMapperGo, hpre, hr, List.find?]
    · have hfalse : l.isPrefixOf path = false := by
        exact Bool.not_eq_true _ ▸ (by simpa using hpre)
      simp [dictMapperGo, hfalse, List.find?, ih]

/-- Closed instance of `c4_dict_mapper_first_match` at a two-entry table
where the second entry also matches but the first wins. -/
theorem c4_dict_mapper_first_match_witness :
    dictMapper [(pstr "/out/", pstr "/tmp/x/"), (pstr "/out", pstr "/y")]
        (pstr "/out/a.txt") (pstr "open")
      = match [(pstr "/out/", pstr "/tmp/x/"), (pstr "/out", pstr "/y")].find?
          (fun e => e.1.isPrefixOf (pstr "/out/a.txt")) with
        | some (l, r) =>
            (true, if r = [] then lstripSlash ((pstr "/out/a.txt").drop l.length)
                   else rstripSlash r ++ '/' :: lstripSlash ((pstr "/out/a.txt").drop l.length))
        | none => (false, pstr "/out/a.txt") :=
  c4_dict_mapper_first_match [(pstr "/out/", pstr "/tmp/x/"), (pstr "/out", pstr "/y")]
    (pstr "/out/a.txt") (pstr "open") (by decide)

/-- Claim C3 (counterexample): registering a handler under the name of a
built-in operation (`"open"`) does not replace the built-in
implementation: normal attribute lookup still finds the class method, so
`__getattr__` — the only place `_extensions` is consulted — never runs
for that name. -/
theorem c3_builtin_override_counterexample :
    getattrMapping (registerExtension [] (pstr "open") 7) (pstr "open")
        = some (.builtin (pstr "open"))
    ∧ getattrMapping (registerExtension [] (pstr "open") 7) (pstr "open")
        ≠ some (.ext 7) := by
  decide

/-- Claim C3 (amended): a handler registered with `register_extension` is
reached through attribute lookup only for operation names that are not
existing attributes of `FSSpecMapping`; for such fresh names the last
registration wins, while for the name of a built-in operation the
built-in implementation is still returned and the registration has no
effect on dispatch. -/
theorem c3_extension_lookup_amended (exts : List (PStr × Nat)) (n : PStr) (h1 h2 : Nat) :
    (n ∉ builtinAttrs → getattrMapping (registerExtension exts n h1) n = some (.ext h1))
    ∧ (n ∉ builtinAttrs →
        getattrMapping (registerExtension (registerExtension exts n h1) n h2) n
          = some (.ext h2))
    ∧ (n ∈ builtinAttrs →
        getattrMapping (registerExtension exts n h1) n = some (.builtin n)) := by
  refine ⟨?_, ?_, ?_⟩
  · intro hn
    simp [getattrMapping, hn, registerExtension, Registry.get?]
  · intro hn
    simp [getattrMapping, hn, registerExtension, Registry.get?]
  · intro hn
    simp [getattrMapping, hn]

/-- Closed instance of `c3_extension_lookup_amended`: a fresh operation
name resolves to the registered handler. -/
theorem c3_extension_lookup_amended_witness :
    getattrMapping (registerExtension [] (pstr "custom_open") 3) (pstr "custom_open")
      = some (.ext 3) :=
  (c3_extension_lookup_amended [] (pstr "custom_open") 3 0).1 (by decide)

/-- Claim C5 (counterexample): with a custom predicate configured,
`map_path` on an empty string is not forced to `(False, path)`: the empty
path is handed straight to the predicate, and a predicate that routes it
makes `map_path` return that routed answer. -/
theorem c5_custom_empty_counterexample :
    mapPath (.funcCfg fun _ _ => (true, pstr "x")) (.str []) (pstr "open")
        = (true, .str (pstr "x"))
    ∧ mapPath (.funcCfg fun _ _ => (true, pstr "x")) (.str []) (pstr "open")
        ≠ (false, .str []) := by
  exact ⟨rfl, by decide⟩

/-- Claim C5 (amended): `map_path` is total (never an error) and returns
`(False, value)` with the value unchanged for every non-string, non-Path
argument under every configuration; an empty string path yields
`(False, "")` under the identity (`None`) and prefix-table
configurations, while under a custom predicate the empty string is passed
through to the predicate and its answer is returned. -/
theorem c5_map_path_guard_amended :
    ∀ (cfg : PathMapping) (op : PStr) (t : Nat) (tbl : List (PStr × PStr)),
      mapPath cfg (.obj t) op = (false, .obj t)
      ∧ mapPath .noneCfg (.str []) op = (false, .str [])
      ∧ mapPath (.dictCfg tbl) (.str []) op = (false, .str []) := by
  intro cfg op t tbl
  refine ⟨rfl, ?_, ?_⟩
  · simp [mapPath, pathMapperOf]
  · simp [mapPath, pathMapperOf, dictMapper]

/-- Claim C7: `os_rename` raises the not-routable `ValueError` whenever
either side's routing decision is unrouted, and when both sides are
routed it performs the backend `fs.mv` on the two mapped paths; no branch
performs a partially-routed rename. -/
theorem c7_rename_requires_both_routed (cfg : PathMapping) (src dst : PyVal) :
    ((mapPath cfg src (pstr "os.rename.src")).1 = false
      ∨ (mapPath cfg dst (pstr "os.rename.dst")).1 = false →
        osRename cfg src dst = .valueError)
    ∧ ((mapPath cfg src (pstr "os.rename.src")).1 = true →
       (mapPath cfg dst (pstr "os.rename.dst")).1 = true →
        osRename cfg src dst
          = .mvCall (mapPath cfg src (pstr "os.rename.src")).2
              (mapPath cfg dst (pstr "os.rename.dst")).2) := by
  constructor
  · intro h
    unfold osRename
    rcases h with h | h <;> simp [h]
  · intro h1 h2
    unfold osRename
    simp [h1, h2]

/-- Closed instance of `c7_rename_requires_both_routed`: under the
identity configuration, renaming onto a non-string destination (which is
never routed) raises `ValueError`. -/
theorem c7_rename_requires_both_routed_witness :
    osRename .noneCfg (.str (pstr "/a")) (.obj 0) = .valueError :=
  (c7_rename_requires_both_routed .noneCfg (.str (pstr "/a")) (.obj 0)).1
    (Or.inr (by decide))

/-- Claim C9 (counterexample): a mixed move whose routed source is a
directory issues `fs.rm(src_path)` with its default `recursive=False` —
a plain, non-recursive backend removal, not the recursive removal the
claim requires for directory sources. -/
theorem c9_routed_dir_counterexample :
    shutilMove .noneCfg (.str (pstr "/a")) (.str (pstr "/b")) true false true
        = .copyThenRemove (.backendRm (.str (pstr "/a")) false)
    ∧ shutilMove .noneCfg (.str (pstr "/a")) (.str (pstr "/b")) true false true
        ≠ .copyThenRemove (.backendRm (.str (pstr "/a")) true) := by
  decide

/-- Claim C9 (amended): when both sides are patched, move delegates to the
backend rename on the mapped paths; otherwise it copies with metadata and
then removes the source — recursively (`shutil.rmtree`) only when an
unrouted source is a directory, while a routed source always gets a plain
non-recursive backend `fs.rm`, directory or not. -/
theorem c9_move_dispatch_amended (cfg : PathMapping) (src dst : PyVal) (srcIsDir : Bool) :
    shutilMove cfg src dst true true srcIsDir
        = .backendMv (mapPath cfg src (pstr "shutil.move.src")).2
            (mapPath cfg dst (pstr "shutil.move.dst")).2
    ∧ shutilMove cfg src dst true false srcIsDir
        = .copyThenRemove (.backendRm (mapPath cfg src (pstr "shutil.move.src")).2 false)
    ∧ (∀ dstPatch : Bool, shutilMove cfg src dst false dstPatch srcIsDir
        = .copyThenRemove (if srcIsDir then .localRmtree src else .localRemove src)) := by
  refine ⟨rfl, rfl, ?_⟩
  intro dstPatch
  simp [shutilMove]

/-- Claim C10: a routed `open` is wrapped in the atomic coordinator
exactly when atomic writes are enabled and the mode contains `'w'` (the
text wrapper when the mode has no `'b'`, the binary wrapper otherwise);
modes without `'w'` — append and read modes — go straight to the
backend's `fs.open` on the mapped path even with atomic writes enabled. -/
theorem c10_open_atomic_iff (cfg : PathMapping) (aw : Bool) (file : PyVal) (mode : PStr)
    (hrouted : (mapPath cfg file (pstr "open")).1 = true) :
    ((mappingOpen cfg aw file mode
          = .atomicText (mapPath cfg file (pstr "open")).2 mode
        ∨ mappingOpen cfg aw file mode
          = .atomicBinary (mapPath cfg file (pstr "open")).2 mode)
      ↔ aw = true ∧ mode.contains 'w' = true)
    ∧ (aw = false ∨ mode.contains 'w' = false →
        mappingOpen cfg aw file mode = .fsOpen (mapPath cfg file (pstr "open")).2 mode) := by
  cases haw : aw <;> cases hw : mode.contains 'w' <;> cases hb : mode.contains 'b'
  all_goals
    first
    | (have hw' : 'w' ∉ mode := by simpa using hw
       simp [mappingOpen, hrouted, hw, hw'])
    | (have hw' : 'w' ∈ mode := by simpa using hw
       have hb' : 'b' ∉ mode := by simpa using hb
       simp [mappingOpen, hrouted, hw, hw', hb'])
    | (have hw' : 'w' ∈ mode := by simpa using hw
       have hb' : 'b' ∈ mode := by simpa using hb
       simp [mappingOpen, hrouted, hw, hw', hb'])

/-- Closed instance of `c10_open_atomic_iff`: with atomic writes enabled,
an append-mode open on a routed path goes directly to the backend. -/
theorem c10_open_atomic_iff_witness :
    mappingOpen .noneCfg true (.str (pstr "/t")) (pstr "a")
      = .fsOpen (mapPath .noneCfg (.str (pstr "/t")) (pstr "open")).2 (pstr "a") :=
  (c10_open_atomic_iff .noneCfg true (.str (pstr "/t")) (pstr "a") (by decide)).2
    (Or.inr (by decide))
